import Mathlib

/-!
Verification of the astronauts-dashboard core (src/astronauts.py).

The dashboard loads a CSV of spaceflight-participant records, normalizes it
(year extraction, column renaming, mission-role rewriting, EVA flag), filters
it by a year range, a gender set and a nationality set, and derives four
chart-ready tables.  This file gives a shallow embedding of that core: a
pandas DataFrame becomes a `List Row`, boolean-mask indexing becomes
`List.filter`, pandas `groupby` (which sorts its keys ascending) becomes
"sorted distinct keys, then per-key aggregation", `value_counts` becomes
"distinct values with their frequencies, sorted by frequency descending",
`drop_duplicates(subset=...)` becomes keep-first deduplication, and Python
`str.replace` becomes left-to-right non-overlapping substring replacement on
character lists.
-/

namespace Astronauts

/-- One participant record after loading and normalization: one row per
mission-participation event, with the snake-cased column names produced by
the column-renaming step of src/astronauts.py (lines 22-38).  The raw
`mission_year` date is modelled as an integer timestamp; `year` is the
calendar-year field derived from it by the loader. -/
structure Row where
  profile_name : String
  mission_year : Int
  year : Int
  profile_gender : String
  profile_nationality : String
  mission_role : String
  profile_lifetime_statistics_eva_duration : Int
  profile_astronaut_numbers_overall : Int
  profile_astronaut_numbers_nationwide : Int
  deriving DecidableEq, Repr

/-! ### Generic list helpers (pandas primitives) -/

/-- Keep-first deduplication with an accumulator `seen` of keys already kept:
the order of first appearance is preserved and an element already in `seen`
is dropped.  This is the ordering pandas `unique` / `value_counts` index
construction uses. -/
def dedupFrom {α : Type} [DecidableEq α] : List α → List α → List α
  | _, [] => []
  | seen, x :: xs =>
    if x ∈ seen then dedupFrom seen xs else x :: dedupFrom (x :: seen) xs

/-- Distinct elements of a list in order of first appearance. -/
def dedupF {α : Type} [DecidableEq α] (l : List α) : List α := dedupFrom [] l

/-- Maximum of a list of integers, `0` on the empty list.  It is only ever
applied to the value column of a non-empty group, where the default is
irrelevant (pandas groupby never produces an empty group). -/
def listMax : List Int → Int
  | [] => 0
  | x :: xs => xs.foldl max x

/-- pandas `value_counts`: one `(value, frequency)` pair per distinct value of
the column, sorted by frequency descending; ties keep first-appearance order
(the spec leaves the tie order uncontractual). -/
def value_counts {α : Type} [DecidableEq α] (l : List α) : List (α × Nat) :=
  List.insertionSort (fun a b => b.2 ≤ a.2) ((dedupF l).map (fun v => (v, l.count v)))

/-! ### Loader / normalizer -/

/-- The fatal load failure of the spec (section 7): the date/year column
cannot be parsed. -/
inductive LoadError : Type
  | DataFormatError : LoadError
  deriving DecidableEq, Repr

/-- Modelled from the spec: the input CSV as seen by `load_data`
(src/astronauts.py lines 12-16).  The parsing itself is done by pandas
(`read_csv(..., parse_dates=['Mission.Year'])` and `.dt.year`), which is not
code of this repository, so each cell of the date column is modelled
post-parse: `some y` when the cell parses to a date with calendar year `y`,
`none` when it is unparseable; the whole column is `none` when the
`Mission.Year` column is absent from the file. -/
structure RawTable where
  missionYearColumn : Option (List (Option Int))

/-- Modelled from the spec: extraction of the calendar year from every cell
of the date column; the whole column fails (date parsing is all-or-nothing in
the loader) as soon as one cell is unparseable. -/
def parseColumn : List (Option Int) → Option (List Int)
  | [] => some []
  | none :: _ => none
  | some y :: rest => (parseColumn rest).map (fun ys => y :: ys)

/-- Modelled from the spec: `load_data` (src/astronauts.py lines 12-16)
derives the `year` column from the parsed date column.  An absent column
(pandas raises inside `read_csv`) or an unparseable cell (pandas leaves the
column non-datetimelike and `.dt.year` raises) surfaces immediately as the
spec's `DataFormatError`, with no partial result; when every cell parses the
loader succeeds with the list of calendar years. -/
def load_data (csv : RawTable) : Except LoadError (List Int) :=
  match csv.missionYearColumn with
  | none => Except.error LoadError.DataFormatError
  | some cells =>
    match parseColumn cells with
    | none => Except.error LoadError.DataFormatError
    | some years => Except.ok years

/-- One pass of Python `str.replace` over a character list: scan left to
right, replacing every non-overlapping occurrence of `pat`; `fuel` bounds the
recursion (it is instantiated with the input length, which suffices because
each step consumes at least one character). -/
def replaceFuel (pat rep : List Char) : Nat → List Char → List Char
  | _, [] => []
  | 0, s => s
  | fuel + 1, c :: cs =>
    if !pat.isEmpty && pat.isPrefixOf (c :: cs) then
      rep ++ replaceFuel pat rep fuel (List.drop pat.length (c :: cs))
    else
      c :: replaceFuel pat rep fuel cs

/-- Python `str.replace(pat, rep)` (regex=False): replace all non-overlapping
occurrences of the literal substring `pat`, scanning left to right. -/
def pyReplace (s pat rep : String) : String :=
  String.mk (replaceFuel pat.data rep.data s.data.length s.data)

/-- Python `str.lower` on the ASCII data of this table. -/
def pyLower (s : String) : String := String.mk (s.data.map Char.toLower)

/-- Normalization of the `mission_role` column (src/astronauts.py lines
28-35): lowercase the whole string, then apply four literal substring
replacements in this order. -/
def normalizeRole (s : String) : String :=
  pyReplace (pyReplace (pyReplace (pyReplace (pyLower s)
    "other (journalist)" "journalist")
    "other (space tourist)" "space tourist")
    "psp" "payload specialist")
    "msp" "mission specialist"

/-- Derivation of the `profile_eva_activity` flag (src/astronauts.py lines
36-38): true iff the lifetime EVA duration is non-zero. -/
def profile_eva_activity (evaDuration : Int) : Bool := evaDuration != 0

/-! ### Filter -/

/-- The filtered view `df_filt` (src/astronauts.py lines 60-65): boolean-mask
row selection by the conjunction of the four comparisons, in source order.
pandas `isin` is list membership. -/
def df_filt (astro : List Row) (selected_years : Int × Int)
    (selected_genders selected_nats : List String) : List Row :=
  astro.filter (fun r =>
    decide (selected_years.1 ≤ r.year) && decide (r.year ≤ selected_years.2) &&
    selected_genders.contains r.profile_gender &&
    selected_nats.contains r.profile_nationality)

/-- The spec-side statement of the filter operation (spec sections 4.2 and 6),
written from the spec's words for the refinement claim: `apply_filters`
returns the subsequence of rows whose `year` lies in the inclusive interval
AND whose gender is a member of the gender set AND whose nationality is a
member of the nationality set. -/
def apply_filters (table : List Row) (y_lo y_hi : Int)
    (genders nationalities : List String) : List Row :=
  table.filter (fun r =>
    decide (y_lo ≤ r.year ∧ r.year ≤ y_hi ∧
      r.profile_gender ∈ genders ∧ r.profile_nationality ∈ nationalities))

/-! ### Aggregate 1: cumulative overall by year -/

/-- The sort key of `df.sort_values(['mission_year','profile_astronaut_numbers_overall'])`
(src/astronauts.py lines 73-75): ascending lexicographic on the date then the
overall counter. -/
def cumulKey (a b : Row) : Prop :=
  a.mission_year < b.mission_year ∨
    (a.mission_year = b.mission_year ∧
      a.profile_astronaut_numbers_overall ≤ b.profile_astronaut_numbers_overall)

instance : DecidableRel cumulKey := fun a b => by
  unfold cumulKey; infer_instance

/-- Aggregate 1 (`plot_cumulative`, src/astronauts.py lines 72-81): sort the
rows by (mission_year, overall), group by `year` — pandas `groupby` sorts its
group keys ascending — and take the maximum of
`profile_astronaut_numbers_overall` within each group. -/
def plot_cumulative (df : List Row) : List (Int × Int) :=
  let sorted_ := List.insertionSort cumulKey df
  let years := List.insertionSort (· ≤ ·) (dedupF (sorted_.map (·.year)))
  years.map (fun y =>
    (y, listMax ((sorted_.filter (fun r => decide (r.year = y))).map
      (·.profile_astronaut_numbers_overall))))

/-! ### Aggregate 2: top-10 nationalities by gender -/

/-- The top-10 nationality selection (`plot_top_nats`, src/astronauts.py
lines 113-114): `value_counts().nlargest(10).index.tolist()` — the ten most
frequent nationality values of the filtered rows, most frequent first. -/
def top10_list (df : List Row) : List String :=
  ((value_counts (df.map (·.profile_nationality))).take 10).map (·.1)

/-- Strict byte-wise lexicographic comparison of character lists: the string
order pandas uses for its sorted group keys, made executable on the character
data. -/
def charListLt : List Char → List Char → Bool
  | _, [] => false
  | [], _ :: _ => true
  | a :: as, b :: bs => if a = b then charListLt as bs else decide (a < b)

/-- String order `s ≤ t`, as the negation of `t < s` on the character data. -/
def strLe (s t : String) : Prop := charListLt t.data s.data = false

instance : DecidableRel strLe := fun a b => by
  unfold strLe; infer_instance

/-- Group-key order for the (nationality, gender) groupby: pandas sorts by
the key tuple, ascending lexicographic. -/
def pairKey (a b : String × String) : Prop :=
  charListLt a.1.data b.1.data = true ∨ (a.1 = b.1 ∧ strLe a.2 b.2)

instance : DecidableRel pairKey := fun a b => by
  unfold pairKey; infer_instance

/-- Aggregate 2 (`plot_top_nats`, src/astronauts.py lines 117-122): restrict
the filtered rows to the top-10 nationalities, group by
(nationality, gender), and take the size of each group. -/
def top_nats_grp (df : List Row) : List ((String × String) × Nat) :=
  let restricted := df.filter (fun r => (top10_list df).contains r.profile_nationality)
  let keys := List.insertionSort pairKey
    (dedupF (restricted.map (fun r => (r.profile_nationality, r.profile_gender))))
  keys.map (fun p =>
    (p, (restricted.filter (fun r =>
      decide (r.profile_nationality = p.1 ∧ r.profile_gender = p.2))).length))

/-! ### Aggregate 3: per-person category counts -/

/-- pandas `drop_duplicates(subset='profile_name')` with the default
`keep='first'` (src/astronauts.py lines 159 and 209): keep the first row seen
for each name; `seen` accumulates the names already kept. -/
def dropDupNamesFrom : List String → List Row → List Row
  | _, [] => []
  | seen, r :: rs =>
    if r.profile_name ∈ seen then dropDupNamesFrom seen rs
    else r :: dropDupNamesFrom (r.profile_name :: seen) rs

/-- One row per distinct `profile_name`, first occurrence kept. -/
def drop_duplicates_by_name (df : List Row) : List Row := dropDupNamesFrom [] df

/-- Aggregate 3, gender variant (`plot_gender_pie`, src/astronauts.py lines
158-165): deduplicate by name, then `value_counts` of the gender column. -/
def plot_gender_pie (df : List Row) : List (String × Nat) :=
  value_counts ((drop_duplicates_by_name df).map (·.profile_gender))

/-- Aggregate 3, EVA variant (`plot_eva_pie`, src/astronauts.py lines
208-215): deduplicate by name, then `value_counts` of the derived
`profile_eva_activity` column. -/
def plot_eva_pie (df : List Row) : List (Bool × Nat) :=
  value_counts ((drop_duplicates_by_name df).map
    (fun r => profile_eva_activity r.profile_lifetime_statistics_eva_duration))

/-! ### Aggregate 4: per-nationality national total -/

/-- Aggregate 4 (`plot_choropleth`, src/astronauts.py lines 180-184): group
by nationality — pandas sorts the group keys ascending — and take the maximum
of `profile_astronaut_numbers_nationwide` within each group. -/
def plot_choropleth (df : List Row) : List (String × Int) :=
  (List.insertionSort strLe (dedupF (df.map (·.profile_nationality)))).map
    (fun n =>
      (n, listMax ((df.filter (fun r => decide (r.profile_nationality = n))).map
        (·.profile_astronaut_numbers_nationwide))))

/-! ### Sample data for concrete instantiations -/

/-- A sample male U.S. record in 1965. -/
def rowA : Row := ⟨"A", 1965, 1965, "male", "U.S.", "commander", 0, 2, 1⟩

/-- A sample female Soviet record in 1965. -/
def rowB : Row := ⟨"B", 1965, 1965, "female", "U.S.S.R.", "mission specialist", 350, 3, 2⟩

/-- A second mission of the person of `rowA`, in 1970. -/
def rowA2 : Row := ⟨"A", 1970, 1970, "male", "U.S.", "commander", 10, 5, 4⟩

/-! ### Helper lemmas: keep-first deduplication -/

theorem mem_dedupFrom {α : Type} [DecidableEq α] (seen l : List α) (a : α) :
    a ∈ dedupFrom seen l ↔ a ∈ l ∧ a ∉ seen := by
  induction l generalizing seen with
  | nil => simp [dedupFrom]
  | cons x xs ih =>
    by_cases hx : x ∈ seen
    · simp only [dedupFrom, if_pos hx, ih, List.mem_cons]
      constructor
      · rintro ⟨h1, h2⟩; exact ⟨Or.inr h1, h2⟩
      · rintro ⟨h1 | h1, h2⟩
        · exact absurd (h1 ▸ hx) h2
        · exact ⟨h1, h2⟩
    · simp only [dedupFrom, if_neg hx, List.mem_cons, ih]
      constructor
      · rintro (rfl | ⟨h1, h2⟩)
        · exact ⟨Or.inl rfl, hx⟩
        · exact ⟨Or.inr h1, fun hs => h2 (Or.inr hs)⟩
      · rintro ⟨rfl | h1, h2⟩
        · exact Or.inl rfl
        · by_cases hax : a = x
          · exact Or.inl hax
          · exact Or.inr ⟨h1, fun hs => hs.elim hax h2⟩

theorem dedupFrom_sublist {α : Type} [DecidableEq α] (seen l : List α) :
    List.Sublist (dedupFrom seen l) l := by
  induction l generalizing seen with
  | nil => simp [dedupFrom]
  | cons x xs ih =>
    by_cases hx : x ∈ seen
    · simp only [dedupFrom, if_pos hx]
      exact (ih seen).trans (List.sublist_cons_self x xs)
    · simp only [dedupFrom, if_neg hx]
      exact (ih (x :: seen)).cons₂ x

theorem nodup_dedupFrom {α : Type} [DecidableEq α] (seen l : List α) :
    (dedupFrom seen l).Nodup := by
  induction l generalizing seen with
  | nil => simp [dedupFrom]
  | cons x xs ih =>
    by_cases hx : x ∈ seen
    · simpa only [dedupFrom, if_pos hx] using ih seen
    · simp only [dedupFrom, if_neg hx]
      refine List.nodup_cons.mpr ⟨fun hmem => ?_, ih (x :: seen)⟩
      exact ((mem_dedupFrom _ _ _).1 hmem).2 (List.mem_cons_self x seen)

theorem mem_dedupF {α : Type} [DecidableEq α] (l : List α) (a : α) :
    a ∈ dedupF l ↔ a ∈ l := by
  simp [dedupF, mem_dedupFrom]

theorem nodup_dedupF {α : Type} [DecidableEq α] (l : List α) : (dedupF l).Nodup :=
  nodup_dedupFrom [] l

/-! ### Helper lemmas: list maximum -/

theorem le_foldl_max (l : List Int) (b : Int) : b ≤ l.foldl max b := by
  induction l generalizing b with
  | nil => exact le_refl b
  | cons c cs ih => exact le_trans (le_max_left b c) (ih (max b c))

theorem mem_le_foldl_max (l : List Int) : ∀ b x, x ∈ l → x ≤ l.foldl max b := by
  induction l with
  | nil => intro _ _ hx; cases hx
  | cons c cs ih =>
    intro b x hx
    rcases List.mem_cons.1 hx with rfl | h
    · exact le_trans (le_max_right b x) (le_foldl_max cs _)
    · exact ih (max b c) x h

theorem le_listMax (l : List Int) (x : Int) (hx : x ∈ l) : x ≤ listMax l := by
  cases l with
  | nil => cases hx
  | cons a as =>
    rcases List.mem_cons.1 hx with rfl | h
    · exact le_foldl_max as x
    · exact mem_le_foldl_max as a x h

theorem foldl_max_mem (l : List Int) : ∀ b, l.foldl max b = b ∨ l.foldl max b ∈ l := by
  induction l with
  | nil => exact fun _ => Or.inl rfl
  | cons c cs ih =>
    intro b
    rcases ih (max b c) with h | h
    · rcases max_choice b c with hm | hm
      · exact Or.inl ((List.foldl_cons _ _ ▸ h).trans hm)
      · refine Or.inr ?_
        rw [List.foldl_cons, h, hm]
        exact List.mem_cons_self c cs
    · exact Or.inr (List.mem_cons_of_mem c (List.foldl_cons _ _ ▸ h))

theorem listMax_mem (l : List Int) (hl : l ≠ []) : listMax l ∈ l := by
  cases l with
  | nil => exact absurd rfl hl
  | cons a as =>
    rcases foldl_max_mem as a with h | h
    · show as.foldl max a ∈ a :: as
      rw [h]; exact List.mem_cons_self a as
    · exact List.mem_cons_of_mem a h

theorem listMax_perm {l₁ l₂ : List Int} (h : l₁.Perm l₂) : listMax l₁ = listMax l₂ := by
  cases l₁ with
  | nil =>
    have h2 : l₂ = [] := h.symm.eq_nil
    rw [h2]
  | cons a as =>
    have h2 : l₂ ≠ [] := by
      intro hl
      subst hl
      simpa using h.eq_nil
    apply le_antisymm
    · exact le_listMax l₂ _ (h.mem_iff.1 (listMax_mem _ (by simp)))
    · exact le_listMax (a :: as) _ (h.mem_iff.2 (listMax_mem l₂ h2))

/-! ### Helper lemmas: the loader model -/

theorem parseColumn_of_mem_none :
    ∀ cells : List (Option Int), none ∈ cells → parseColumn cells = none
  | [], h => absurd h (List.not_mem_nil none)
  | none :: _, _ => rfl
  | some y :: rest, h => by
    have hr : none ∈ rest := by
      rcases List.mem_cons.1 h with h1 | h1
      · exact absurd h1 (by simp)
      · exact h1
    simp [parseColumn, parseColumn_of_mem_none rest hr]

theorem parseColumn_map_some : ∀ years : List Int, parseColumn (years.map some) = some years
  | [] => rfl
  | y :: rest => by simp [parseColumn, parseColumn_map_some rest]

/-! ### Helper lemmas: grouped maxima -/

theorem listMax_group {β κ : Type} [DecidableEq κ] (rows : List β) (key : β → κ)
    (value : β → Int) (y : κ) (hy : y ∈ rows.map key) :
    (∃ r ∈ rows, key r = y ∧
      value r = listMax ((rows.filter (fun r => decide (key r = y))).map value)) ∧
    (∀ r ∈ rows, key r = y →
      value r ≤ listMax ((rows.filter (fun r => decide (key r = y))).map value)) := by
  have hne : (rows.filter (fun r => decide (key r = y))).map value ≠ [] := by
    rcases List.mem_map.1 hy with ⟨r, hr, hkey⟩
    exact List.ne_nil_of_mem
      (List.mem_map_of_mem value (List.mem_filter.2 ⟨hr, by simp [hkey]⟩))
  constructor
  · rcases List.mem_map.1 (listMax_mem _ hne) with ⟨r, hr, hval⟩
    have hr' := List.mem_filter.1 hr
    exact ⟨r, hr'.1, by simpa using hr'.2, hval⟩
  · intro r hr hkey
    exact le_listMax _ _
      (List.mem_map_of_mem value (List.mem_filter.2 ⟨hr, by simp [hkey]⟩))

/-! ### Helper lemmas: value_counts -/

theorem mem_value_counts {α : Type} [DecidableEq α] (l : List α) (v : α) (c : Nat) :
    (v, c) ∈ value_counts l ↔ v ∈ l ∧ c = l.count v := by
  rw [value_counts, List.mem_insertionSort, List.mem_map]
  constructor
  · rintro ⟨w, hw, heq⟩
    rcases Prod.mk.injEq .. ▸ heq with ⟨rfl, rfl⟩
    exact ⟨(mem_dedupF l w).1 hw, rfl⟩
  · rintro ⟨h1, rfl⟩
    exact ⟨v, (mem_dedupF l v).2 h1, rfl⟩

theorem sorted_value_counts {α : Type} [DecidableEq α] (l : List α) :
    List.Sorted (fun a b : α × Nat => b.2 ≤ a.2) (value_counts l) := by
  haveI : IsTotal (α × Nat) (fun a b => b.2 ≤ a.2) := ⟨fun a b => Nat.le_total b.2 a.2⟩
  haveI : IsTrans (α × Nat) (fun a b => b.2 ≤ a.2) := ⟨fun _ _ _ h1 h2 => le_trans h2 h1⟩
  exact List.sorted_insertionSort _ _

theorem nodup_fst_value_counts {α : Type} [DecidableEq α] (l : List α) :
    ((value_counts l).map Prod.fst).Nodup := by
  have hperm : ((value_counts l).map Prod.fst).Perm
      (((dedupF l).map (fun v => (v, l.count v))).map Prod.fst) :=
    (List.perm_insertionSort _ _).map Prod.fst
  refine hperm.nodup_iff.2 ?_
  rw [List.map_map]
  simpa [Function.comp_def] using nodup_dedupF l

theorem count_eq_of_mem_value_counts {α : Type} [DecidableEq α] {l : List α}
    {p : α × Nat} (hp : p ∈ value_counts l) : p.1 ∈ l ∧ p.2 = l.count p.1 := by
  rcases p with ⟨v, c⟩
  exact (mem_value_counts l v c).1 hp

theorem take10_count_ge {α : Type} [DecidableEq α] (l : List α) (n m : α)
    (hn : n ∈ ((value_counts l).take 10).map Prod.fst)
    (hm : m ∈ l) (hm' : m ∉ ((value_counts l).take 10).map Prod.fst) :
    l.count m ≤ l.count n := by
  rcases List.mem_map.1 hn with ⟨pn, hpn, rfl⟩
  have hpn' := count_eq_of_mem_value_counts (List.take_subset 10 _ hpn)
  have hmvc : (m, l.count m) ∈ value_counts l := (mem_value_counts l m _).2 ⟨hm, rfl⟩
  have hsplit : (m, l.count m) ∈ (value_counts l).take 10 ∨
      (m, l.count m) ∈ (value_counts l).drop 10 := by
    rw [← List.mem_append, List.take_append_drop]
    exact hmvc
  rcases hsplit with h | h
  · exact absurd (List.mem_map_of_mem Prod.fst h) hm'
  · have hsor : List.Pairwise (fun a b : α × Nat => b.2 ≤ a.2)
        ((value_counts l).take 10 ++ (value_counts l).drop 10) := by
      rw [List.take_append_drop]
      exact sorted_value_counts l
    have hle := (List.pairwise_append.1 hsor).2.2 pn hpn (m, l.count m) h
    rw [← hpn'.2]
    exact hle

/-! ### Helper lemmas: deduplication by name -/

theorem dropDupNamesFrom_sublist (seen : List String) (df : List Row) :
    List.Sublist (dropDupNamesFrom seen df) df := by
  induction df generalizing seen with
  | nil => simp [dropDupNamesFrom]
  | cons r rs ih =>
    by_cases hx : r.profile_name ∈ seen
    · simp only [dropDupNamesFrom, if_pos hx]
      exact (ih seen).trans (List.sublist_cons_self r rs)
    · simp only [dropDupNamesFrom, if_neg hx]
      exact (ih (r.profile_name :: seen)).cons₂ r

theorem names_dropDupNamesFrom (seen : List String) (df : List Row) (n : String) :
    n ∈ (dropDupNamesFrom seen df).map (·.profile_name) ↔
      n ∈ df.map (·.profile_name) ∧ n ∉ seen := by
  induction df generalizing seen with
  | nil => simp [dropDupNamesFrom]
  | cons r rs ih =>
    by_cases hx : r.profile_name ∈ seen
    · simp only [dropDupNamesFrom, if_pos hx, ih, List.map_cons, List.mem_cons]
      constructor
      · rintro ⟨h1, h2⟩; exact ⟨Or.inr h1, h2⟩
      · rintro ⟨h1 | h1, h2⟩
        · exact absurd (h1 ▸ hx) h2
        · exact ⟨h1, h2⟩
    · simp only [dropDupNamesFrom, if_neg hx, List.map_cons, List.mem_cons, ih]
      constructor
      · rintro (rfl | ⟨h1, h2⟩)
        · exact ⟨Or.inl rfl, hx⟩
        · exact ⟨Or.inr h1, fun hs => h2 (Or.inr hs)⟩
      · rintro ⟨rfl | h1, h2⟩
        · exact Or.inl rfl
        · by_cases hax : n = r.profile_name
          · exact Or.inl hax
          · exact Or.inr ⟨h1, fun hs => hs.elim hax h2⟩

theorem nodup_names_dropDupNamesFrom (seen : List String) (df : List Row) :
    ((dropDupNamesFrom seen df).map (·.profile_name)).Nodup := by
  induction df generalizing seen with
  | nil => simp [dropDupNamesFrom]
  | cons r rs ih =>
    by_cases hx : r.profile_name ∈ seen
    · simpa only [dropDupNamesFrom, if_pos hx] using ih seen
    · simp only [dropDupNamesFrom, if_neg hx, List.map_cons]
      refine List.nodup_cons.mpr ⟨fun hmem => ?_, ih (r.profile_name :: seen)⟩
      exact ((names_dropDupNamesFrom _ _ _).1 hmem).2 (List.mem_cons_self _ seen)

theorem find_dropDupNamesFrom (seen : List String) (df : List Row) :
    ∀ r ∈ dropDupNamesFrom seen df,
      r.profile_name ∉ seen ∧
        df.find? (fun s => s.profile_name == r.profile_name) = some r := by
  induction df generalizing seen with
  | nil => intro r hr; cases hr
  | cons q rs ih =>
    intro r hr
    by_cases hx : q.profile_name ∈ seen
    · rw [dropDupNamesFrom, if_pos hx] at hr
      rcases ih seen r hr with ⟨hnot, hfind⟩
      have hne : (q.profile_name == r.profile_name) = false := by
        refine beq_eq_false_iff_ne.2 (fun he => ?_)
        exact hnot (he ▸ hx)
      rw [List.find?_cons_of_neg _ (by simp [hne]), hfind]
      exact ⟨hnot, rfl⟩
    · rw [dropDupNamesFrom, if_neg hx] at hr
      rcases List.mem_cons.1 hr with rfl | hr'
      · exact ⟨hx, by rw [List.find?_cons_of_pos _ (by simp)]⟩
      · rcases ih (q.profile_name :: seen) r hr' with ⟨hnot, hfind⟩
        have hner : r.profile_name ≠ q.profile_name :=
          fun he => hnot (he ▸ List.mem_cons_self _ seen)
        have hne : (q.profile_name == r.profile_name) = false :=
          beq_eq_false_iff_ne.2 (fun he => hner he.symm)
        refine ⟨fun hs => hnot (List.mem_cons_of_mem _ hs), ?_⟩
        rw [List.find?_cons_of_neg _ (by simp [hne]), hfind]

/-! ### Claim theorems -/

/-- C1: for every normalized table, year range with y_lo ≤ y_hi, gender set
and nationality set, `df_filt` returns exactly the subsequence of input rows
(order preserved) whose year lies in the inclusive range, whose gender is in
the gender set and whose nationality is in the nationality set; every output
row satisfies all three predicates, and an empty gender or nationality set
yields an empty result. -/
theorem df_filt_correct (astro : List Row) (y_lo y_hi : Int)
    (genders nats : List String) (_h : y_lo ≤ y_hi) :
    df_filt astro (y_lo, y_hi) genders nats = apply_filters astro y_lo y_hi genders nats ∧
    List.Sublist (df_filt astro (y_lo, y_hi) genders nats) astro ∧
    (∀ r ∈ df_filt astro (y_lo, y_hi) genders nats,
      y_lo ≤ r.year ∧ r.year ≤ y_hi ∧
        r.profile_gender ∈ genders ∧ r.profile_nationality ∈ nats) ∧
    (genders = [] → df_filt astro (y_lo, y_hi) genders nats = []) ∧
    (nats = [] → df_filt astro (y_lo, y_hi) genders nats = []) := by
  refine ⟨?_, ?_, ?_, ?_, ?_⟩
  · simp only [df_filt, apply_filters]
    refine List.filter_congr (fun r _ => ?_)
    rw [Bool.eq_iff_iff]
    simp [List.contains, and_assoc]
  · exact List.filter_sublist astro
  · intro r hr
    simp only [df_filt, List.mem_filter, Bool.and_eq_true, decide_eq_true_eq,
      List.contains, List.elem_eq_mem] at hr
    exact ⟨hr.2.1.1.1, hr.2.1.1.2, hr.2.1.2, hr.2.2⟩
  · rintro rfl
    simp [df_filt, List.filter_eq_nil_iff]
  · rintro rfl
    simp [df_filt, List.filter_eq_nil_iff]

/-- Witness for C1 at the spec's own end-to-end example: two 1965 rows,
range (1961, 2019), both genders, both nationalities. -/
theorem df_filt_correct_witness :
    (1961 : Int) ≤ 2019 ∧
      (df_filt [rowA, rowB] (1961, 2019) ["male", "female"] ["U.S.", "U.S.S.R."] =
          apply_filters [rowA, rowB] 1961 2019 ["male", "female"] ["U.S.", "U.S.S.R."] ∧
        List.Sublist
          (df_filt [rowA, rowB] (1961, 2019) ["male", "female"] ["U.S.", "U.S.S.R."])
          [rowA, rowB] ∧
        (∀ r ∈ df_filt [rowA, rowB] (1961, 2019) ["male", "female"] ["U.S.", "U.S.S.R."],
          (1961 : Int) ≤ r.year ∧ r.year ≤ 2019 ∧
            r.profile_gender ∈ ["male", "female"] ∧
            r.profile_nationality ∈ ["U.S.", "U.S.S.R."]) ∧
        ((["male", "female"] : List String) = [] →
          df_filt [rowA, rowB] (1961, 2019) ["male", "female"] ["U.S.", "U.S.S.R."] = []) ∧
        ((["U.S.", "U.S.S.R."] : List String) = [] →
          df_filt [rowA, rowB] (1961, 2019) ["male", "female"] ["U.S.", "U.S.S.R."] = [])) :=
  ⟨by decide,
    df_filt_correct [rowA, rowB] 1961 2019 ["male", "female"] ["U.S.", "U.S.S.R."] (by decide)⟩

/-- C9: filtering is idempotent — applying `df_filt` to its own output with
the same year range, gender set and nationality set returns that output
unchanged. -/
theorem df_filt_idempotent (astro : List Row) (selected_years : Int × Int)
    (selected_genders selected_nats : List String) :
    df_filt (df_filt astro selected_years selected_genders selected_nats)
        selected_years selected_genders selected_nats =
      df_filt astro selected_years selected_genders selected_nats := by
  simp only [df_filt, List.filter_filter]
  exact List.filter_congr (fun a _ => Bool.and_self _)

/-- C6: mission-role normalization lowercases the field and then applies the
four literal substring replacements in order; the spec's three concrete
examples hold, and a longer token containing msp is still rewritten
(substring matching, not whole-field matching). -/
theorem normalizeRole_correct :
    normalizeRole "Other (Journalist)" = "journalist" ∧
    normalizeRole "Other (Space Tourist)" = "space tourist" ∧
    normalizeRole "PSP" = "payload specialist" ∧
    normalizeRole "MSP" = "mission specialist" ∧
    normalizeRole "teamsport" = "teamission specialistort" := by
  refine ⟨?_, ?_, ?_, ?_, ?_⟩ <;> decide

/-- C7: the derived eva_activity flag is true iff the EVA-duration field is
non-zero; duration 0 gives the false value and duration 350 gives the true
value (the code keeps the flag as a native boolean, which the spec
accepts). -/
theorem profile_eva_activity_correct :
    (∀ d : Int, profile_eva_activity d = true ↔ d ≠ 0) ∧
    profile_eva_activity 0 = false ∧ profile_eva_activity 350 = true := by
  refine ⟨fun d => ?_, by decide, by decide⟩
  simp [profile_eva_activity]

/-- C8: the loader fails with DataFormatError when the date column is absent
or any cell of it is unparseable, surfaced immediately with no partial
result; whenever every cell of the date column parses, the loader succeeds
and derives the year field. -/
theorem load_data_correct (csv : RawTable) :
    (csv.missionYearColumn = none →
      load_data csv = Except.error LoadError.DataFormatError) ∧
    (∀ cells, csv.missionYearColumn = some cells → none ∈ cells →
      load_data csv = Except.error LoadError.DataFormatError) ∧
    (∀ years : List Int, csv.missionYearColumn = some (years.map some) →
      load_data csv = Except.ok years) := by
  refine ⟨fun h => ?_, fun cells h1 h2 => ?_, fun ys h1 => ?_⟩
  · simp [load_data, h]
  · simp [load_data, h1, parseColumn_of_mem_none cells h2]
  · simp [load_data, h1, parseColumn_map_some ys]

/-- C2: aggregate 1 emits one (year, max) pair per distinct year of the
filtered rows, in strictly increasing year order, each value being the true
maximum of the overall counter among the rows of that year; an empty filtered
table gives an empty series. -/
theorem plot_cumulative_correct (df : List Row) :
    List.Sorted (· < ·) ((plot_cumulative df).map Prod.fst) ∧
    (∀ y : Int, y ∈ (plot_cumulative df).map Prod.fst ↔ y ∈ df.map (·.year)) ∧
    (∀ p ∈ plot_cumulative df,
      (∃ r ∈ df, r.year = p.1 ∧ r.profile_astronaut_numbers_overall = p.2) ∧
      (∀ r ∈ df, r.year = p.1 → r.profile_astronaut_numbers_overall ≤ p.2)) ∧
    (df = [] → plot_cumulative df = []) := by
  have hperm : (List.insertionSort cumulKey df).Perm df := List.perm_insertionSort _ _
  have hfst : (plot_cumulative df).map Prod.fst
      = List.insertionSort (· ≤ ·)
          (dedupF ((List.insertionSort cumulKey df).map (·.year))) := by
    simp [plot_cumulative, List.map_map, Function.comp_def]
  have hyears : ∀ y : Int,
      y ∈ List.insertionSort (· ≤ ·)
          (dedupF ((List.insertionSort cumulKey df).map (·.year))) ↔
        y ∈ df.map (·.year) := by
    intro y
    rw [List.mem_insertionSort, mem_dedupF]
    exact (hperm.map (·.year)).mem_iff
  refine ⟨?_, ?_, ?_, ?_⟩
  · rw [hfst]
    refine List.Sorted.lt_of_le (List.sorted_insertionSort _ _) ?_
    exact ((List.perm_insertionSort _ _).nodup_iff).2 (nodup_dedupF _)
  · intro y
    rw [hfst]
    exact hyears y
  · intro p hp
    simp only [plot_cumulative, List.mem_map] at hp
    rcases hp with ⟨y, hy, rfl⟩
    have hy' : y ∈ (List.insertionSort cumulKey df).map (·.year) :=
      (mem_dedupF _ y).1 ((List.mem_insertionSort _).1 hy)
    have hmax := listMax_group (List.insertionSort cumulKey df) (·.year)
      (·.profile_astronaut_numbers_overall) y hy'
    constructor
    · rcases hmax.1 with ⟨r, hr, hkey, hval⟩
      exact ⟨r, hperm.mem_iff.1 hr, hkey, hval⟩
    · intro r hr hkey
      exact hmax.2 r (hperm.mem_iff.2 hr) hkey
  · rintro rfl
    rfl

/-- C5: aggregate 4 emits one (nationality, max) pair per distinct
nationality of the filtered rows, each value being the true maximum of the
nationwide counter among the rows of that nationality. -/
theorem plot_choropleth_correct (df : List Row) :
    (∀ n : String,
      n ∈ (plot_choropleth df).map Prod.fst ↔ n ∈ df.map (·.profile_nationality)) ∧
    ((plot_choropleth df).map Prod.fst).Nodup ∧
    (∀ p ∈ plot_choropleth df,
      (∃ r ∈ df, r.profile_nationality = p.1 ∧
        r.profile_astronaut_numbers_nationwide = p.2) ∧
      (∀ r ∈ df, r.profile_nationality = p.1 →
        r.profile_astronaut_numbers_nationwide ≤ p.2)) := by
  have hfst : (plot_choropleth df).map Prod.fst
      = List.insertionSort strLe (dedupF (df.map (·.profile_nationality))) := by
    simp [plot_choropleth, List.map_map, Function.comp_def]
  refine ⟨?_, ?_, ?_⟩
  · intro n
    rw [hfst, List.mem_insertionSort, mem_dedupF]
  · rw [hfst]
    exact ((List.perm_insertionSort _ _).nodup_iff).2 (nodup_dedupF _)
  · intro p hp
    simp only [plot_choropleth, List.mem_map] at hp
    rcases hp with ⟨n, hn, rfl⟩
    have hn' : n ∈ df.map (·.profile_nationality) :=
      (mem_dedupF _ n).1 ((List.mem_insertionSort _).1 hn)
    exact listMax_group df (·.profile_nationality)
      (·.profile_astronaut_numbers_nationwide) n hn'

/-- C3: aggregate 2 returns at most 10 distinct nationalities — exactly the
10 highest-frequency nationality values of the filtered rows (all of them
when fewer than 10 exist; tie order not asserted) — and its counts are the
number of filtered rows for each observed (nationality, gender) pair
restricted to those top-10 nationalities. -/
theorem top_nats_correct (df : List Row) :
    (top10_list df).length ≤ 10 ∧
    (top10_list df).Nodup ∧
    (top10_list df).length = min 10 (dedupF (df.map (·.profile_nationality))).length ∧
    (∀ n ∈ top10_list df, n ∈ df.map (·.profile_nationality)) ∧
    (∀ n ∈ top10_list df, ∀ m ∈ df.map (·.profile_nationality),
      m ∉ top10_list df →
        (df.map (·.profile_nationality)).count m ≤
          (df.map (·.profile_nationality)).count n) ∧
    (∀ q ∈ top_nats_grp df,
      q.1.1 ∈ top10_list df ∧
        q.2 = (df.filter (fun r =>
          decide (r.profile_nationality = q.1.1 ∧ r.profile_gender = q.1.2))).length) ∧
    (∀ r ∈ df, r.profile_nationality ∈ top10_list df →
      ((r.profile_nationality, r.profile_gender),
          (df.filter (fun s =>
            decide (s.profile_nationality = r.profile_nationality ∧
              s.profile_gender = r.profile_gender))).length) ∈ top_nats_grp df) := by
  have hrestr : ∀ n g, n ∈ top10_list df →
      (df.filter (fun r => (top10_list df).contains r.profile_nationality)).filter
        (fun r => decide (r.profile_nationality = n ∧ r.profile_gender = g))
      = df.filter (fun r =>
          decide (r.profile_nationality = n ∧ r.profile_gender = g)) := by
    intro n g hn
    rw [List.filter_filter]
    refine List.filter_congr (fun r _ => ?_)
    by_cases hc : r.profile_nationality = n ∧ r.profile_gender = g
    · simp [hc, List.contains, hc.1, hn]
    · simp [hc]
  refine ⟨?_, ?_, ?_, ?_, ?_, ?_, ?_⟩
  · simp only [top10_list, List.length_map, List.length_take]
    exact Nat.min_le_left _ _
  · rw [top10_list, List.map_take]
    exact (List.take_sublist 10 _).nodup (nodup_fst_value_counts _)
  · simp only [top10_list, List.length_map, List.length_take, value_counts,
      List.length_insertionSort]
  · intro n hn
    rcases List.mem_map.1 hn with ⟨p, hp, rfl⟩
    exact (count_eq_of_mem_value_counts (List.take_subset 10 _ hp)).1
  · intro n hn m hm hm'
    exact take10_count_ge _ n m hn hm hm'
  · intro q hq
    simp only [top_nats_grp, List.mem_map] at hq
    rcases hq with ⟨p, hp, rfl⟩
    have hp' : p ∈ (df.filter
        (fun r => (top10_list df).contains r.profile_nationality)).map
          (fun r => (r.profile_nationality, r.profile_gender)) :=
      (mem_dedupF _ p).1 ((List.mem_insertionSort _).1 hp)
    rcases List.mem_map.1 hp' with ⟨r, hr, rfl⟩
    have htop : r.profile_nationality ∈ top10_list df := by
      have := (List.mem_filter.1 hr).2
      simpa [List.contains] using this
    exact ⟨htop, by rw [hrestr _ _ htop]⟩
  · intro r hr htop
    have hrres : r ∈ df.filter
        (fun s => (top10_list df).contains s.profile_nationality) :=
      List.mem_filter.2 ⟨hr, by simp [List.contains, htop]⟩
    have hkey : (r.profile_nationality, r.profile_gender) ∈
        List.insertionSort pairKey (dedupF ((df.filter
          (fun s => (top10_list df).contains s.profile_nationality)).map
            (fun s => (s.profile_nationality, s.profile_gender)))) :=
      (List.mem_insertionSort _).2 ((mem_dedupF _ _).2
        (List.mem_map_of_mem _ hrres))
    rw [← hrestr r.profile_nationality r.profile_gender htop]
    simpa only [top_nats_grp] using
      List.mem_map_of_mem (fun p => (p,
        ((df.filter (fun s => (top10_list df).contains s.profile_nationality)).filter
          (fun s => decide (s.profile_nationality = p.1 ∧
            s.profile_gender = p.2))).length)) hkey

/-- C4: aggregate 3 first deduplicates rows by name keeping the first
occurrence, then counts the target categorical field among the deduplicated
rows: two rows with the same name and different year contribute exactly one
occurrence of that name, each kept row is the first row of its name, every
emitted count is the frequency of its category among the deduplicated rows,
and an empty input yields an empty result for both the gender and the EVA
variant. -/
theorem per_person_counts_correct (df : List Row) (r1 r2 : Row)
    (h1 : r1 ∈ df) (_h2 : r2 ∈ df) (_h3 : r1.profile_name = r2.profile_name)
    (_h4 : r1.year ≠ r2.year) :
    ((drop_duplicates_by_name df).map (·.profile_name)).count r1.profile_name = 1 ∧
    (∀ r ∈ drop_duplicates_by_name df,
      df.find? (fun s => s.profile_name == r.profile_name) = some r) ∧
    List.Sublist (drop_duplicates_by_name df) df ∧
    (∀ p ∈ plot_gender_pie df,
      p.2 = ((drop_duplicates_by_name df).map (·.profile_gender)).count p.1) ∧
    (∀ p ∈ plot_eva_pie df,
      p.2 = ((drop_duplicates_by_name df).map (fun r =>
        profile_eva_activity r.profile_lifetime_statistics_eva_duration)).count p.1) ∧
    plot_gender_pie [] = [] ∧ plot_eva_pie [] = [] := by
  refine ⟨?_, ?_, ?_, ?_, ?_, rfl, rfl⟩
  · refine List.count_eq_one_of_mem (nodup_names_dropDupNamesFrom [] df) ?_
    exact (names_dropDupNamesFrom [] df r1.profile_name).2
      ⟨List.mem_map_of_mem _ h1, List.not_mem_nil _⟩
  · intro r hr
    exact (find_dropDupNamesFrom [] df r hr).2
  · exact dropDupNamesFrom_sublist [] df
  · intro p hp
    exact (count_eq_of_mem_value_counts hp).2
  · intro p hp
    exact (count_eq_of_mem_value_counts hp).2

/-- Witness for C4: three rows, two of which are the same person A in
different years; A is counted once. -/
theorem per_person_counts_correct_witness :
    rowA ∈ [rowA, rowB, rowA2] ∧ rowA2 ∈ [rowA, rowB, rowA2] ∧
      rowA.profile_name = rowA2.profile_name ∧ rowA.year ≠ rowA2.year ∧
      (((drop_duplicates_by_name [rowA, rowB, rowA2]).map
            (·.profile_name)).count rowA.profile_name = 1 ∧
        (∀ r ∈ drop_duplicates_by_name [rowA, rowB, rowA2],
          List.find? (fun s => s.profile_name == r.profile_name)
            [rowA, rowB, rowA2] = some r) ∧
        List.Sublist (drop_duplicates_by_name [rowA, rowB, rowA2])
          [rowA, rowB, rowA2] ∧
        (∀ p ∈ plot_gender_pie [rowA, rowB, rowA2],
          p.2 = ((drop_duplicates_by_name [rowA, rowB, rowA2]).map
            (·.profile_gender)).count p.1) ∧
        (∀ p ∈ plot_eva_pie [rowA, rowB, rowA2],
          p.2 = ((drop_duplicates_by_name [rowA, rowB, rowA2]).map (fun r =>
            profile_eva_activity r.profile_lifetime_statistics_eva_duration)).count p.1) ∧
        plot_gender_pie [] = [] ∧ plot_eva_pie [] = []) :=
  ⟨by decide, by decide, by decide, by decide,
    per_person_counts_correct [rowA, rowB, rowA2] rowA rowA2
      (by decide) (by decide) (by decide) (by decide)⟩

/-- C10: when the filtered table has fewer than 10 distinct nationality
values, the top-10 selection returns all distinct nationalities present —
it degrades gracefully instead of failing or padding. -/
theorem top10_small_returns_all (df : List Row) (n : String)
    (h : (dedupF (df.map (·.profile_nationality))).length < 10) :
    n ∈ top10_list df ↔ n ∈ df.map (·.profile_nationality) := by
  have hlen : (value_counts (df.map (·.profile_nationality))).length ≤ 10 := by
    rw [value_counts, List.length_insertionSort, List.length_map]
    exact le_of_lt h
  rw [top10_list, List.take_of_length_le hlen]
  constructor
  · intro hmem
    rcases List.mem_map.1 hmem with ⟨p, hp, rfl⟩
    exact (count_eq_of_mem_value_counts hp).1
  · intro hmem
    exact List.mem_map_of_mem Prod.fst
      ((mem_value_counts _ n _).2 ⟨hmem, rfl⟩)

/-- Witness for C10: two rows with two distinct nationalities (fewer than
ten); the selection returns them all, in particular the U.S. entry. -/
theorem top10_small_returns_all_witness :
    (dedupF (([rowA, rowB] : List Row).map (·.profile_nationality))).length < 10 ∧
      ("U.S." ∈ top10_list [rowA, rowB] ↔
        "U.S." ∈ ([rowA, rowB] : List Row).map (·.profile_nationality)) :=
  ⟨by decide, top10_small_returns_all [rowA, rowB] "U.S." (by decide)⟩

end Astronauts
